import Mathlib

-- Verification of the 12.48" Waveshare e-paper uploader pipeline
-- (quantization, plane separation, bit packing, geometry reordering,
-- chunked upload protocol).  Definitions are shallow embeddings of the
-- TypeScript source; channel values are modelled as exact rationals
-- (the JS floats only ever hold small integers and k/32 multiples,
-- and none of the verified properties depend on rounding).

-- ------------------------------------------------------------------
-- Geometry constants (fixed by the device)
-- ------------------------------------------------------------------

def WIDTH : Nat := 1304

def HEIGHT : Nat := 984

-- XSTR = Math.ceil(WIDTH / 4) = 326
def XSTR : Nat := (WIDTH + 3) / 4

def TOP_HALF_ROWS : Nat := HEIGHT / 2

def LEFT_NIBBLES : Nat := 162

def RIGHT_NIBBLES : Nat := XSTR - LEFT_NIBBLES

def CHUNK_SIZE : Nat := 30000

-- ------------------------------------------------------------------
-- Models and palettes
-- ------------------------------------------------------------------

-- RGB triple, channels as rationals
abbrev RGB3 := ℚ × ℚ × ℚ

def z3 : RGB3 := (0, 0, 0)

inductive ModelName
  | epd1248    -- "12.48inch e-Paper"          (mono)
  | epd1248B   -- "12.48inch e-Paper (B)"      (black + red)
  | epd1248C   -- "12.48inch e-Paper (C)"      (black + yellow)
  deriving DecidableEq

-- MODELS[model].color : 0 mono, 1 red, 2 yellow
def MODELS : ModelName → Nat
  | .epd1248 => 0
  | .epd1248B => 1
  | .epd1248C => 2

def modelString : ModelName → List Char
  | .epd1248 => "12.48inch e-Paper".toList
  | .epd1248B => "12.48inch e-Paper (B)".toList
  | .epd1248C => "12.48inch e-Paper (C)".toList

-- Palettes exactly as in the page's palArr
def PAL_ARR : List (List RGB3) :=
  [ [(0,0,0), (255,255,255)],                        -- 0
    [(0,0,0), (255,255,255), (255,0,0)],             -- 1
    [(0,0,0), (255,255,255), (127,127,127)],         -- 2
    [(0,0,0), (255,255,255), (127,127,127), (127,0,0)], -- 3 (unused)
    [(0,0,0), (255,255,255)],                        -- 4
    [(0,0,0), (255,255,255), (220,180,0)] ]          -- 5

-- Map model -> base palInd like epdArr[...][4] in the page
def basePalIndFor (model : ModelName) : Nat :=
  if model = .epd1248 then 0
  else if model = .epd1248B then 1
  else 5

-- palInd = basePalIndFor(model); if low mode bit is clear, palInd &= 0xFE
def paletteForMode (model : ModelName) (mode : Nat) : List RGB3 :=
  let palInd := basePalIndFor model
  let palInd := if (mode &&& 1) = 1 then palInd else palInd &&& 0xFE
  PAL_ARR.getD palInd []

-- ------------------------------------------------------------------
-- Nearest palette index (squared Euclidean RGB distance, first wins)
-- ------------------------------------------------------------------

def distSq (r g b : ℚ) (c : RGB3) : ℚ :=
  (r - c.1) * (r - c.1) + (g - c.2.1) * (g - c.2.1) + (b - c.2.2) * (b - c.2.2)

-- best = none models the initial Number.POSITIVE_INFINITY
def ltBest (d : ℚ) : Option ℚ → Bool
  | none => true
  | some bv => decide (d < bv)

def nearestGo (r g b : ℚ) : List RGB3 → Nat → Nat → Option ℚ → Nat
  | [], _, idx, _ => idx
  | c :: rest, i, idx, best =>
    let d := distSq r g b c
    if ltBest d best then nearestGo r g b rest (i + 1) i (some d)
    else nearestGo r g b rest (i + 1) idx best

def nearestIdx (r g b : ℚ) (pal : List RGB3) : Nat :=
  nearestGo r g b pal 0 0 none

-- ------------------------------------------------------------------
-- Web "Level" path: nearest without error diffusion
-- ------------------------------------------------------------------

-- The source allocates out of the same length as rgba and writes the
-- 4 channels of each pixel (y, x) at offset (y*WIDTH+x)*4, in row-major
-- order; for a buffer of the panel size 4*WIDTH*HEIGHT this is exactly
-- the row-major concatenation below.
-- the 4 output channels of pixel (y, x)
def levelPixel (rgba : List ℚ) (pal : List RGB3) (y x : Nat) : List ℚ :=
  let i := (y * WIDTH + x) * 4
  let k := nearestIdx (rgba.getD i 0) (rgba.getD (i + 1) 0) (rgba.getD (i + 2) 0) pal
  let c := pal.getD k z3
  [c.1, c.2.1, c.2.2, 255]

def levelRow (rgba : List ℚ) (pal : List RGB3) (y : Nat) : List ℚ :=
  ((List.range WIDTH).map (fun x => levelPixel rgba pal y x)).flatten

def quantizeLevelWeb (rgba : List ℚ) (pal : List RGB3) : List ℚ :=
  ((List.range HEIGHT).map (fun y => levelRow rgba pal y)).flatten

-- ------------------------------------------------------------------
-- Web "Dither" path (divide-by-32 kernel, two rolling error rows)
-- ------------------------------------------------------------------

structure DitherState where
  errA : List RGB3
  errB : List RGB3
  out : List ℚ

-- acc[ch] += err[ch] * (k/32)
def addErrTriple (acc : RGB3) (er eg eb k : ℚ) : RGB3 :=
  (acc.1 + er * (k / 32), acc.2.1 + eg * (k / 32), acc.2.2 + eb * (k / 32))

def bumpErr (l : List RGB3) (i : Nat) (er eg eb k : ℚ) : List RGB3 :=
  l.set i (addErrTriple (l.getD i z3) er eg eb k)

-- The error-distribution step of quantizeDitherWeb for the pixel at
-- column x: errA is the current row's accumulator, errB the next row's.
def diffuse (x : Nat) (er eg eb : ℚ) (errA errB : List RGB3) :
    List RGB3 × List RGB3 :=
  if x = 0 then
    -- left edge
    let errB1 := bumpErr errB x er eg eb 7
    let errB2 := if x + 1 < WIDTH then bumpErr errB1 (x + 1) er eg eb 2 else errB1
    let errA1 := if x + 1 < WIDTH then bumpErr errA (x + 1) er eg eb 7 else errA
    (errA1, errB2)
  else if x = WIDTH - 1 then
    -- right edge
    (errA, bumpErr (bumpErr errB (x - 1) er eg eb 7) x er eg eb 9)
  else
    -- interior
    (bumpErr errA (x + 1) er eg eb 7,
     bumpErr (bumpErr (bumpErr errB (x - 1) er eg eb 3) x er eg eb 5) (x + 1) er eg eb 1)

def ditherPixel (pal : List RGB3) (buf : List ℚ) (y : Nat)
    (st : DitherState) (x : Nat) : DitherState :=
  let i := (y * WIDTH + x) * 4
  let e := st.errA.getD x z3
  let r := buf.getD i 0 + e.1
  let g := buf.getD (i + 1) 0 + e.2.1
  let b := buf.getD (i + 2) 0 + e.2.2
  let k := nearestIdx r g b pal
  let c := pal.getD k z3
  let p := diffuse x (r - c.1) (g - c.2.1) (b - c.2.2) st.errA st.errB
  ⟨p.1, p.2, st.out ++ [c.1, c.2.1, c.2.2, 255]⟩

-- at the top of each row: a <- b, clear b, then scan the row
def ditherRow (pal : List RGB3) (buf : List ℚ) (st : DitherState) (y : Nat) :
    DitherState :=
  (List.range WIDTH).foldl (ditherPixel pal buf y)
    ⟨st.errB, List.replicate WIDTH z3, st.out⟩

def quantizeDitherWeb (rgba : List ℚ) (pal : List RGB3) : List ℚ :=
  ((List.range HEIGHT).foldl (ditherRow pal rgba)
    ⟨List.replicate WIDTH z3, List.replicate WIDTH z3, []⟩).out

-- ------------------------------------------------------------------
-- Plane separation
-- ------------------------------------------------------------------

def accentFor (colorFlag : Nat) : Option RGB3 :=
  if colorFlag = 1 then some (255, 0, 0)
  else if colorFlag = 2 then some (220, 180, 0)
  else none

def accentMatch : Option RGB3 → ℚ → ℚ → ℚ → Bool
  | none, _, _, _ => false
  | some ac, r, g, b => decide (r = ac.1) && decide (g = ac.2.1) && decide (b = ac.2.2)

-- one loop iteration of makePlanes: the (blackBit, ryBit) pair of pixel i
def planePixel (rgba : List ℚ) (triColor : Bool) (accent : Option RGB3)
    (i : Nat) : Nat × Nat :=
  let r := rgba.getD (i * 4) 0
  let g := rgba.getD (i * 4 + 1) 0
  let b := rgba.getD (i * 4 + 2) 0
  let a := rgba.getD (i * 4 + 3) 0
  if a = 0 then (1, 1)
  else if r = 0 ∧ g = 0 ∧ b = 0 then (0, 1)            -- ink on black plane
  else if (¬(r = 255 ∧ g = 255 ∧ b = 255)) ∧ triColor = true ∧
          accentMatch accent r g b = true then (1, 0)  -- ink on color plane
  else (1, 1)                                          -- white / fallback

-- triColor = colorFlag !== 0 && ((mode ?? 1) & 0x01) === 1
def triColorOf (model : ModelName) (mode : Option Nat) : Bool :=
  decide (MODELS model ≠ 0) && decide (((mode.getD 1) &&& 1) = 1)

def makePlanes (rgba : List ℚ) (model : ModelName) (mode : Option Nat) :
    List Nat × List Nat :=
  let total := WIDTH * HEIGHT
  let triColor := triColorOf model mode
  let accent := accentFor (MODELS model)
  ((List.range total).map (fun i => (planePixel rgba triColor accent i).1),
   (List.range total).map (fun i => (planePixel rgba triColor accent i).2))

-- ------------------------------------------------------------------
-- Bit packing: 4 bits -> nibble -> 'a' + nibble
-- ------------------------------------------------------------------

def packLoop : List Nat → Nat → Nat → List Char
  | [], acc, j => if j ≠ 0 then [Char.ofNat (97 + acc)] else []
  | bit :: rest, acc, j =>
    let acc1 := acc + (bit &&& 1) <<< (3 - j)
    if j + 1 = 4 then Char.ofNat (97 + acc1) :: packLoop rest 0 0
    else packLoop rest acc1 (j + 1)

def packToChars (bits : List Nat) : List Char :=
  packLoop bits 0 0

-- ------------------------------------------------------------------
-- Geometry reordering (m1 s1 m2 s2, 162/164 column split)
-- ------------------------------------------------------------------

-- JS msg.slice(a, b)
def sliceL (s : List Char) (a b : Nat) : List Char :=
  (s.drop a).take (b - a)

-- one of the four reorder loops: rows lo, lo+1, ..., lo+n-1, columns [a, b)
def rowSlices (msg : List Char) (rowLen a b : Nat) : Nat → Nat → List Char
  | _, 0 => []
  | lo, n + 1 =>
    sliceL msg (lo * rowLen + a) (lo * rowLen + b) ++
      rowSlices msg rowLen a b (lo + 1) n

def reorderErr : String := "Unexpected message length"

def reorderFor1248 (msg : List Char) : Except String (List Char) :=
  if msg.length ≠ XSTR * HEIGHT then .error reorderErr
  else .ok
    (rowSlices msg XSTR 0 LEFT_NIBBLES 0 TOP_HALF_ROWS ++
     rowSlices msg XSTR LEFT_NIBBLES XSTR 0 TOP_HALF_ROWS ++
     rowSlices msg XSTR 0 LEFT_NIBBLES TOP_HALF_ROWS (HEIGHT - TOP_HALF_ROWS) ++
     rowSlices msg XSTR LEFT_NIBBLES XSTR TOP_HALF_ROWS (HEIGHT - TOP_HALF_ROWS))

-- Inverse of the reordering: re-interleave a left-column block and a
-- right-column block back into full rows.
def colsMerge : List Char → List Char → Nat → Nat → Nat → List Char
  | _, _, _, _, 0 => []
  | u, v, la, lb, n + 1 =>
    u.take la ++ v.take lb ++ colsMerge (u.drop la) (v.drop lb) la lb n

def unreorderFor1248 (s : List Char) : List Char :=
  let aLen := TOP_HALF_ROWS * LEFT_NIBBLES
  let bLen := TOP_HALF_ROWS * RIGHT_NIBBLES
  let blkA := s.take aLen
  let blkB := (s.drop aLen).take bLen
  let blkC := ((s.drop aLen).drop bLen).take aLen
  let blkD := ((s.drop aLen).drop bLen).drop aLen
  colsMerge blkA blkB LEFT_NIBBLES RIGHT_NIBBLES TOP_HALF_ROWS ++
    colsMerge blkC blkD LEFT_NIBBLES RIGHT_NIBBLES (HEIGHT - TOP_HALF_ROWS)

-- ------------------------------------------------------------------
-- Chunking and the upload protocol
-- ------------------------------------------------------------------

-- chunk(s, n): successive slices of at most n characters
def chunk (s : List Char) (n : Nat) : List (List Char) :=
  if s.isEmpty ∨ n = 0 then [] else s.take n :: chunk (s.drop n) n
termination_by s.length
decreasing_by
  rename_i h
  push_neg at h
  have hn : n ≠ 0 := h.2
  have hs : s.length ≠ 0 := by
    intro hlen
    exact h.1 (by simp [List.isEmpty_iff, List.length_eq_zero.mp hlen])
  simp only [List.length_drop]
  omega

structure Req where
  path : String
  body : List Char
  deriving DecidableEq

-- Trace semantics of a sequence of awaited postText calls: requests are
-- issued in order; a non-ok response throws, aborting the rest.
def issueAll (respond : Req → Bool) : List Req → List Req × Bool
  | [] => ([], true)
  | r :: rs =>
    if respond r then
      let p := issueAll respond rs
      (r :: p.1, p.2)
    else ([r], false)

-- uploadImageBuffer: plane building, packing, reordering, chunking, then
-- POST /EPD, POST /LOADA (per chunk), POST /LOADB (per chunk, color only),
-- POST /SHOW.  The result is the list of requests actually issued and
-- whether the whole sequence succeeded.
-- The tail of uploadImageBuffer after the two reorder calls: a reorder
-- failure (thrown in the source) propagates; otherwise the requests are
-- issued in protocol order.  (colorFlag = MODELS model; the intermediate
-- bMsg / rMsg / bChunks / rChunks bindings of the source are inlined.)
def uploadPlanned (respond : Req → Bool) (model : ModelName)
    (bo ro : Except String (List Char)) : Except String (List Req × Bool) :=
  match bo with
  | .error e => .error e
  | .ok bOrdered =>
    match ro with
    | .error e => .error e
    | .ok rOrdered =>
      .ok (issueAll respond
        ([⟨"EPD", modelString model⟩] ++
         (chunk bOrdered CHUNK_SIZE).map (fun c => ⟨"LOADA", c⟩) ++
         (if MODELS model ≠ 0 then
           (chunk rOrdered CHUNK_SIZE).map (fun c => ⟨"LOADB", c⟩)
          else []) ++
         [⟨"SHOW", modelString model⟩]))

def uploadImageBuffer (respond : Req → Bool) (model : ModelName)
    (rgba : List ℚ) (mode : Nat) : Except String (List Req × Bool) :=
  uploadPlanned respond model
    (reorderFor1248 (packToChars (makePlanes rgba model (some mode)).1))
    (if MODELS model ≠ 0 then
      reorderFor1248 (packToChars (makePlanes rgba model (some mode)).2)
     else .ok [])

-- squared distance from (r, g, b) to palette entry j
def palD (r g b : ℚ) (pal : List RGB3) (j : Nat) : ℚ :=
  distSq r g b (pal.getD j z3)

-- pixel p of a quantized buffer holds some palette color with alpha 255
def palettePixelAt (pal : List RGB3) (buf : List ℚ) (p : Nat) : Prop :=
  (∃ c ∈ pal, buf.getD (4 * p) 0 = c.1 ∧ buf.getD (4 * p + 1) 0 = c.2.1 ∧
    buf.getD (4 * p + 2) 0 = c.2.2) ∧ buf.getD (4 * p + 3) 0 = 255

-- ==================================================================
-- Lemma layer
-- ==================================================================

lemma getD_set_self {α : Type} (l : List α) (i : Nat) (v d : α)
    (h : i < l.length) : (l.set i v).getD i d = v := by
  rw [List.getD_eq_getElem (l.set i v) d (by simpa using h), List.getElem_set]
  simp

lemma getD_set_ne {α : Type} (l : List α) (i j : Nat) (v d : α)
    (hij : i ≠ j) : (l.set i v).getD j d = l.getD j d := by
  by_cases hj : j < l.length
  · rw [List.getD_eq_getElem (l.set i v) d (by simpa using hj),
      List.getElem_set_ne hij, List.getD_eq_getElem l d hj]
  · rw [List.getD_eq_default _ _ (by simpa using Nat.le_of_not_lt hj),
      List.getD_eq_default _ _ (Nat.le_of_not_lt hj)]

lemma nearestGo_nil (r g b : ℚ) (i idx : Nat) (best : Option ℚ) :
    nearestGo r g b [] i idx best = idx := rfl

lemma nearestGo_cons_true (r g b : ℚ) (c : RGB3) (rest : List RGB3)
    (i idx : Nat) (best : Option ℚ) (h : ltBest (distSq r g b c) best = true) :
    nearestGo r g b (c :: rest) i idx best =
      nearestGo r g b rest (i + 1) i (some (distSq r g b c)) := by
  rw [nearestGo]
  simp [h]

lemma nearestGo_cons_false (r g b : ℚ) (c : RGB3) (rest : List RGB3)
    (i idx : Nat) (best : Option ℚ) (h : ltBest (distSq r g b c) best = false) :
    nearestGo r g b (c :: rest) i idx best =
      nearestGo r g b rest (i + 1) idx best := by
  rw [nearestGo]
  simp [h]

-- Full correctness of the nearestIdx accumulator loop.
lemma nearestGo_spec (r g b : ℚ) (pal : List RGB3) :
    ∀ (l : List RGB3) (i0 idx : Nat) (best : Option ℚ),
      l = pal.drop i0 → i0 ≤ pal.length →
      (best = none → i0 = 0) →
      (∀ bv, best = some bv →
        idx < i0 ∧ bv = palD r g b pal idx ∧
        (∀ j, j < i0 → palD r g b pal idx ≤ palD r g b pal j) ∧
        (∀ j, j < i0 → palD r g b pal j = palD r g b pal idx → idx ≤ j)) →
      pal ≠ [] →
      nearestGo r g b l i0 idx best < pal.length ∧
      (∀ j, j < pal.length →
        palD r g b pal (nearestGo r g b l i0 idx best) ≤ palD r g b pal j) ∧
      (∀ j, j < pal.length →
        palD r g b pal j = palD r g b pal (nearestGo r g b l i0 idx best) →
        nearestGo r g b l i0 idx best ≤ j) := by
  intro l
  induction l with
  | nil =>
    intro i0 idx best hdrop hle hnone hsome hpal
    have hlen : pal.length ≤ i0 := List.drop_eq_nil_iff.mp hdrop.symm
    have hi0 : i0 = pal.length := Nat.le_antisymm hle hlen
    cases best with
    | none =>
      exfalso
      have h0 := hnone rfl
      rw [h0] at hi0
      exact hpal (List.length_eq_zero.mp hi0.symm)
    | some bv =>
      obtain ⟨hidx, hbv, hmin, htie⟩ := hsome bv rfl
      rw [nearestGo_nil]
      refine ⟨by omega, ?_, ?_⟩
      · intro j hj
        exact hmin j (by omega)
      · intro j hj heq
        exact htie j (by omega) heq
  | cons c rest ih =>
    intro i0 idx best hdrop hle hnone hsome hpal
    have hi0lt : i0 < pal.length := by
      by_contra hcon
      have hnil : pal.drop i0 = [] := List.drop_eq_nil_iff.mpr (Nat.le_of_not_lt hcon)
      rw [← hdrop] at hnil
      exact List.cons_ne_nil c rest hnil
    have hc : c = pal.getD i0 z3 := by
      have h1 : (pal.drop i0)[0]? = pal[i0 + 0]? := List.getElem?_drop pal i0 0
      rw [← hdrop] at h1
      simp at h1
      rw [List.getD_eq_getElem?_getD, ← h1]
      rfl
    have hrest : rest = pal.drop (i0 + 1) := by
      have h2 : List.drop 1 (pal.drop i0) = pal.drop (i0 + 1) := by
        rw [List.drop_drop]
      rw [← hdrop] at h2
      simpa using h2
    have hd : distSq r g b c = palD r g b pal i0 := by rw [hc]; rfl
    cases best with
    | none =>
      have h00 : i0 = 0 := hnone rfl
      rw [nearestGo_cons_true r g b c rest i0 idx none rfl]
      refine ih (i0 + 1) i0 (some (distSq r g b c)) hrest (by omega)
        (by intro h; cases h) ?_ hpal
      intro bv2 hbv2
      have hbv2e : distSq r g b c = bv2 := by injection hbv2
      refine ⟨Nat.lt_succ_self i0, by rw [← hbv2e, hd], ?_, ?_⟩
      · intro j hj
        have hji : j = i0 := by omega
        rw [hji]
      · intro j hj _
        omega
    | some bv =>
      obtain ⟨hidx, hbv, hmin, htie⟩ := hsome bv rfl
      by_cases hlt : distSq r g b c < bv
      · rw [nearestGo_cons_true r g b c rest i0 idx (some bv) (by simp [ltBest, hlt])]
        refine ih (i0 + 1) i0 (some (distSq r g b c)) hrest (by omega)
          (by intro h; cases h) ?_ hpal
        intro bv2 hbv2
        have hbv2e : distSq r g b c = bv2 := by injection hbv2
        refine ⟨Nat.lt_succ_self i0, by rw [← hbv2e, hd], ?_, ?_⟩
        · intro j hj
          rcases Nat.lt_or_ge j i0 with hji | hji
          · calc palD r g b pal i0 = distSq r g b c := hd.symm
              _ ≤ bv := le_of_lt hlt
              _ = palD r g b pal idx := hbv
              _ ≤ palD r g b pal j := hmin j hji
          · have hji2 : j = i0 := by omega
            rw [hji2]
        · intro j hj heq
          rcases Nat.lt_or_ge j i0 with hji | hji
          · exfalso
            have h1 : palD r g b pal idx ≤ palD r g b pal j := hmin j hji
            have h2 : palD r g b pal i0 < palD r g b pal idx := by
              rw [← hd]
              rw [hbv] at hlt
              exact hlt
            rw [heq] at h1
            exact absurd (lt_of_le_of_lt h1 h2) (lt_irrefl _)
          · omega
      · rw [nearestGo_cons_false r g b c rest i0 idx (some bv) (by simp [ltBest, hlt])]
        refine ih (i0 + 1) idx (some bv) hrest (by omega)
          (by intro h; cases h) ?_ hpal
        intro bv2 hbv2
        have hbv2e : bv = bv2 := by injection hbv2
        subst hbv2e
        refine ⟨by omega, hbv, ?_, ?_⟩
        · intro j hj
          rcases Nat.lt_or_ge j i0 with hji | hji
          · exact hmin j hji
          · have hji2 : j = i0 := by omega
            rw [hji2, ← hd, ← hbv]
            exact le_of_not_lt hlt
        · intro j hj heq
          rcases Nat.lt_or_ge j i0 with hji | hji
          · exact htie j hji heq
          · omega

lemma nearestIdx_spec (r g b : ℚ) (pal : List RGB3) (hpal : pal ≠ []) :
    nearestIdx r g b pal < pal.length ∧
    (∀ j, j < pal.length →
      palD r g b pal (nearestIdx r g b pal) ≤ palD r g b pal j) ∧
    (∀ j, j < pal.length →
      palD r g b pal j = palD r g b pal (nearestIdx r g b pal) →
      nearestIdx r g b pal ≤ j) := by
  have h := nearestGo_spec r g b pal pal 0 0 none (by simp) (by omega)
    (fun _ => rfl) (by intro bv h; cases h) hpal
  exact h

-- ------------------------------------------------------------------
-- Uniform-length flatten lemmas
-- ------------------------------------------------------------------

lemma flatten_length_uniform {α : Type} (L : Nat) :
    ∀ (l : List (List α)), (∀ r ∈ l, r.length = L) →
      l.flatten.length = l.length * L := by
  intro l
  induction l with
  | nil => intro _; simp
  | cons r rest ih =>
    intro h
    simp only [List.flatten_cons, List.length_append, List.length_cons]
    rw [ih (fun q hq => h q (List.mem_cons_of_mem _ hq)),
      h r (List.mem_cons_self r rest)]
    ring

lemma flatten_getD_uniform {α : Type} (d : α) (L : Nat) :
    ∀ (l : List (List α)) (i j : Nat), (∀ r ∈ l, r.length = L) →
      i < l.length → j < L →
      l.flatten.getD (i * L + j) d = (l.getD i []).getD j d := by
  intro l
  induction l with
  | nil =>
    intro i j _ hi _
    simp at hi
  | cons r rest ih =>
    intro i j h hi hj
    have hr : r.length = L := h r (List.mem_cons_self r rest)
    cases i with
    | zero =>
      simp only [List.flatten_cons, Nat.zero_mul, Nat.zero_add, List.getD_cons_zero]
      exact List.getD_append r rest.flatten d j (by rw [hr]; exact hj)
    | succ i =>
      simp only [List.flatten_cons, List.getD_cons_succ]
      have hL : (i + 1) * L = i * L + L := Nat.succ_mul i L
      rw [hL]
      rw [List.getD_append_right r rest.flatten d (i * L + L + j)
        (by rw [hr]; exact le_trans (Nat.le_add_left L (i * L)) (Nat.le_add_right _ j))]
      have h3 : i * L + L + j - r.length = i * L + j := by
        rw [hr]
        generalize i * L = t
        omega
      rw [h3]
      exact ih i j (fun q hq => h q (List.mem_cons_of_mem _ hq)) (by simpa using hi) hj

-- ------------------------------------------------------------------
-- quantizeLevelWeb access lemmas
-- ------------------------------------------------------------------

lemma levelRow_length (rgba : List ℚ) (pal : List RGB3) (y : Nat) :
    (levelRow rgba pal y).length = WIDTH * 4 := by
  unfold levelRow
  rw [flatten_length_uniform 4]
  · simp
  · intro q hq
    simp only [List.mem_map] at hq
    obtain ⟨x, _, hx⟩ := hq
    rw [← hx]
    rfl

lemma quantizeLevelWeb_length (rgba : List ℚ) (pal : List RGB3) :
    (quantizeLevelWeb rgba pal).length = HEIGHT * (WIDTH * 4) := by
  unfold quantizeLevelWeb
  rw [flatten_length_uniform (WIDTH * 4)]
  · simp
  · intro q hq
    simp only [List.mem_map] at hq
    obtain ⟨y, _, hy⟩ := hq
    rw [← hy, levelRow_length]

lemma quantizeLevelWeb_getD (rgba : List ℚ) (pal : List RGB3) (x y c : Nat)
    (hx : x < WIDTH) (hy : y < HEIGHT) (hc : c < 4) :
    (quantizeLevelWeb rgba pal).getD ((y * WIDTH + x) * 4 + c) 0 =
      (levelPixel rgba pal y x).getD c 0 := by
  unfold quantizeLevelWeb
  have hidx : (y * WIDTH + x) * 4 + c = y * (WIDTH * 4) + (x * 4 + c) := by ring
  rw [hidx]
  rw [flatten_getD_uniform 0 (WIDTH * 4) _ y (x * 4 + c)
    (by
      intro q hq
      simp only [List.mem_map] at hq
      obtain ⟨y2, _, hy2⟩ := hq
      rw [← hy2, levelRow_length])
    (by simpa using hy) (by omega)]
  have hmapy : (((List.range HEIGHT).map (fun y => levelRow rgba pal y)).getD y []) =
      levelRow rgba pal y := by
    rw [List.getD_eq_getElem _ _ (by simpa using hy), List.getElem_map, List.getElem_range]
  rw [hmapy]
  unfold levelRow
  rw [flatten_getD_uniform 0 4 _ x c
    (by
      intro q hq
      simp only [List.mem_map] at hq
      obtain ⟨x2, _, hx2⟩ := hq
      rw [← hx2]
      rfl)
    (by simpa using hx) hc]
  have hmapx : (((List.range WIDTH).map (fun x2 => levelPixel rgba pal y x2)).getD x []) =
      levelPixel rgba pal y x := by
    rw [List.getD_eq_getElem _ _ (by simpa using hx), List.getElem_map, List.getElem_range]
  rw [hmapx]

-- ==================================================================
-- Claims C10, C5, C6
-- ==================================================================

/-- Claim C10: for every non-empty palette and every rational RGB value
(including values pushed outside 0-255 by accumulated dither error), the
nearest-palette-index search returns an index strictly less than the
palette length, so the palette lookup is in bounds and yields a palette
member. -/
theorem claim_C10 (r g b : ℚ) (pal : List RGB3) (hpal : 0 < pal.length) :
    nearestIdx r g b pal < pal.length ∧
    pal.getD (nearestIdx r g b pal) z3 ∈ pal := by
  have hne : pal ≠ [] := by
    intro h
    rw [h] at hpal
    simp at hpal
  have h := nearestIdx_spec r g b pal hne
  refine ⟨h.1, ?_⟩
  rw [List.getD_eq_getElem pal z3 h.1]
  exact List.getElem_mem h.1

theorem claim_C10_witness :
    nearestIdx (-300) 999 (1/2) [((0:ℚ),(0:ℚ),(0:ℚ)), (255,255,255)] <
      ([((0:ℚ),(0:ℚ),(0:ℚ)), (255,255,255)] : List RGB3).length ∧
    ([((0:ℚ),(0:ℚ),(0:ℚ)), (255,255,255)] : List RGB3).getD
      (nearestIdx (-300) 999 (1/2) [((0:ℚ),(0:ℚ),(0:ℚ)), (255,255,255)]) z3 ∈
      ([((0:ℚ),(0:ℚ),(0:ℚ)), (255,255,255)] : List RGB3) :=
  claim_C10 (-300) 999 (1/2) [((0:ℚ),(0:ℚ),(0:ℚ)), (255,255,255)] (by norm_num)

/-- Claim C5: flat (non-dithered) quantization maps each pixel, as a
function of only that pixel's RGB channels, to the palette entry
minimizing squared Euclidean RGB distance, with ties resolved in favor
of the smaller (first-declared) palette index; the output channels are
the chosen entry's RGB plus alpha 255. -/
theorem claim_C5 (rgba : List ℚ) (pal : List RGB3) (hpal : pal ≠ [])
    (x y p k : Nat) (r g b : ℚ)
    (hx : x < WIDTH) (hy : y < HEIGHT) (hp : p = y * WIDTH + x)
    (hr : r = rgba.getD (p * 4) 0) (hg : g = rgba.getD (p * 4 + 1) 0)
    (hb : b = rgba.getD (p * 4 + 2) 0)
    (hk : k = nearestIdx r g b pal) :
    (quantizeLevelWeb rgba pal).getD (p * 4) 0 = (pal.getD k z3).1 ∧
    (quantizeLevelWeb rgba pal).getD (p * 4 + 1) 0 = (pal.getD k z3).2.1 ∧
    (quantizeLevelWeb rgba pal).getD (p * 4 + 2) 0 = (pal.getD k z3).2.2 ∧
    (quantizeLevelWeb rgba pal).getD (p * 4 + 3) 0 = 255 ∧
    k < pal.length ∧
    (∀ j, j < pal.length → palD r g b pal k ≤ palD r g b pal j) ∧
    (∀ j, j < pal.length → palD r g b pal j = palD r g b pal k → k ≤ j) := by
  subst hp hr hg hb hk
  have hspec := nearestIdx_spec (rgba.getD ((y * WIDTH + x) * 4) 0)
    (rgba.getD ((y * WIDTH + x) * 4 + 1) 0)
    (rgba.getD ((y * WIDTH + x) * 4 + 2) 0) pal hpal
  have h0 := quantizeLevelWeb_getD rgba pal x y 0 hx hy (by omega)
  have h1 := quantizeLevelWeb_getD rgba pal x y 1 hx hy (by omega)
  have h2 := quantizeLevelWeb_getD rgba pal x y 2 hx hy (by omega)
  have h3 := quantizeLevelWeb_getD rgba pal x y 3 hx hy (by omega)
  rw [Nat.add_zero] at h0
  refine ⟨?_, ?_, ?_, ?_, hspec.1, hspec.2.1, hspec.2.2⟩
  · rw [h0]; rfl
  · rw [h1]; rfl
  · rw [h2]; rfl
  · rw [h3]; rfl

theorem claim_C5_witness :
    (quantizeLevelWeb [] [((0:ℚ),(0:ℚ),(0:ℚ)), (255,255,255)]).getD (0 * 4) 0 =
      (([((0:ℚ),(0:ℚ),(0:ℚ)), (255,255,255)] : List RGB3).getD 0 z3).1 ∧
    (quantizeLevelWeb [] [((0:ℚ),(0:ℚ),(0:ℚ)), (255,255,255)]).getD (0 * 4 + 1) 0 =
      (([((0:ℚ),(0:ℚ),(0:ℚ)), (255,255,255)] : List RGB3).getD 0 z3).2.1 ∧
    (quantizeLevelWeb [] [((0:ℚ),(0:ℚ),(0:ℚ)), (255,255,255)]).getD (0 * 4 + 2) 0 =
      (([((0:ℚ),(0:ℚ),(0:ℚ)), (255,255,255)] : List RGB3).getD 0 z3).2.2 ∧
    (quantizeLevelWeb [] [((0:ℚ),(0:ℚ),(0:ℚ)), (255,255,255)]).getD (0 * 4 + 3) 0 = 255 ∧
    0 < ([((0:ℚ),(0:ℚ),(0:ℚ)), (255,255,255)] : List RGB3).length ∧
    (∀ j, j < ([((0:ℚ),(0:ℚ),(0:ℚ)), (255,255,255)] : List RGB3).length →
      palD 0 0 0 [((0:ℚ),(0:ℚ),(0:ℚ)), (255,255,255)] 0 ≤
        palD 0 0 0 [((0:ℚ),(0:ℚ),(0:ℚ)), (255,255,255)] j) ∧
    (∀ j, j < ([((0:ℚ),(0:ℚ),(0:ℚ)), (255,255,255)] : List RGB3).length →
      palD 0 0 0 [((0:ℚ),(0:ℚ),(0:ℚ)), (255,255,255)] j =
        palD 0 0 0 [((0:ℚ),(0:ℚ),(0:ℚ)), (255,255,255)] 0 → 0 ≤ j) :=
  claim_C5 [] [((0:ℚ),(0:ℚ),(0:ℚ)), (255,255,255)] (by simp) 0 0 0 0 0 0 0
    (by decide) (by decide) (by simp) rfl rfl rfl
    (by
      simp only [nearestIdx, nearestGo, ltBest, distSq]
      norm_num)

/-- Claim C6: for every panel model and every mode with a clear low bit
(the monochrome request, modes 0 and 2), the palette used for
quantization is the first two entries (pure black, pure white) of the
model's base palette, discarding the accent entry. -/
theorem claim_C6 (model : ModelName) (mode : Nat) (hm : mode &&& 1 = 0) :
    paletteForMode model mode = (PAL_ARR.getD (basePalIndFor model) []).take 2 ∧
    paletteForMode model mode = [(0,0,0), (255,255,255)] := by
  have h4 : (5 : Nat) &&& 254 = 4 := by decide
  cases model <;>
    refine ⟨?_, ?_⟩ <;>
    simp [paletteForMode, basePalIndFor, PAL_ARR, hm, h4]

theorem claim_C6_witness :
    (paletteForMode ModelName.epd1248C 2 =
      (PAL_ARR.getD (basePalIndFor ModelName.epd1248C) []).take 2 ∧
     paletteForMode ModelName.epd1248C 2 = [(0,0,0), (255,255,255)]) :=
  claim_C6 ModelName.epd1248C 2 (by decide)

-- ------------------------------------------------------------------
-- Claim C1: left-edge dither distribution
-- ------------------------------------------------------------------

lemma diffuse_left (er eg eb : ℚ) (errA errB : List RGB3) :
    diffuse 0 er eg eb errA errB =
      (bumpErr errA 1 er eg eb 7,
       bumpErr (bumpErr errB 0 er eg eb 7) 1 er eg eb 2) := by
  have hW : (0:Nat) + 1 < WIDTH := by decide
  simp [diffuse, hW]

/-- Claim C1 (amended): in dithered quantization, for every row, the
residual error of the pixel at column 0 is distributed with weights
divided by 32 as follows: to (next row, same column) with weight 7, to
(next row, next column) with weight 2, and to (same row, next column)
with weight 7.  (The claim as stated swaps the weights of
(same row, next column) and (next row, next column).) -/
theorem claim_C1_amended (pal : List RGB3) (buf : List ℚ) (y : Nat)
    (st : DitherState) (hA : 1 < st.errA.length) (hB : 1 < st.errB.length)
    (r g b er eg eb : ℚ)
    (hr : r = buf.getD ((y * WIDTH + 0) * 4) 0 + (st.errA.getD 0 z3).1)
    (hg : g = buf.getD ((y * WIDTH + 0) * 4 + 1) 0 + (st.errA.getD 0 z3).2.1)
    (hb : b = buf.getD ((y * WIDTH + 0) * 4 + 2) 0 + (st.errA.getD 0 z3).2.2)
    (her : er = r - (pal.getD (nearestIdx r g b pal) z3).1)
    (heg : eg = g - (pal.getD (nearestIdx r g b pal) z3).2.1)
    (heb : eb = b - (pal.getD (nearestIdx r g b pal) z3).2.2) :
    (ditherPixel pal buf y st 0).errB.getD 0 z3 =
      addErrTriple (st.errB.getD 0 z3) er eg eb 7 ∧
    (ditherPixel pal buf y st 0).errB.getD 1 z3 =
      addErrTriple (st.errB.getD 1 z3) er eg eb 2 ∧
    (ditherPixel pal buf y st 0).errA.getD 1 z3 =
      addErrTriple (st.errA.getD 1 z3) er eg eb 7 := by
  subst her heg heb hr hg hb
  simp only [ditherPixel, diffuse_left]
  refine ⟨?_, ?_, ?_⟩
  · rw [bumpErr, getD_set_ne _ 1 0 _ _ (by omega), bumpErr,
      getD_set_self _ 0 _ _ (by omega)]
  · rw [bumpErr, getD_set_self _ 1 _ _ (by simp only [bumpErr, List.length_set]; omega),
      bumpErr, getD_set_ne _ 0 1 _ _ (by omega)]
  · rw [bumpErr, getD_set_self _ 1 _ _ (by omega)]

theorem claim_C1_witness :
    ((ditherPixel [((0:ℚ),(0:ℚ),(0:ℚ))] [(32:ℚ),0,0,255] 0
        ⟨[z3, z3], [z3, z3], []⟩ 0).errB.getD 0 z3 =
      addErrTriple (([z3, z3] : List RGB3).getD 0 z3) 32 0 0 7 ∧
     (ditherPixel [((0:ℚ),(0:ℚ),(0:ℚ))] [(32:ℚ),0,0,255] 0
        ⟨[z3, z3], [z3, z3], []⟩ 0).errB.getD 1 z3 =
      addErrTriple (([z3, z3] : List RGB3).getD 1 z3) 32 0 0 2 ∧
     (ditherPixel [((0:ℚ),(0:ℚ),(0:ℚ))] [(32:ℚ),0,0,255] 0
        ⟨[z3, z3], [z3, z3], []⟩ 0).errA.getD 1 z3 =
      addErrTriple (([z3, z3] : List RGB3).getD 1 z3) 32 0 0 7) :=
  claim_C1_amended [((0:ℚ),(0:ℚ),(0:ℚ))] [(32:ℚ),0,0,255] 0
    ⟨[z3, z3], [z3, z3], []⟩ (by norm_num) (by norm_num)
    32 0 0 32 0 0
    (by norm_num [z3])
    (by norm_num [z3])
    (by norm_num [z3])
    (by
      simp only [nearestIdx, nearestGo, ltBest, distSq, z3]
      norm_num)
    (by
      simp only [nearestIdx, nearestGo, ltBest, distSq, z3]
      norm_num)
    (by
      simp only [nearestIdx, nearestGo, ltBest, distSq, z3]
      norm_num)

/-- Claim C1 (counterexample): the distribution as stated by the claim
(weight 2/32 to (same row, next column), 7/32 to (next row, next column),
7/32 to (next row, same column)) is false at a concrete left-edge pixel
with residual error (32, 0, 0): the code adds 7 to the same-row
accumulator at column 1 and 2 to the next-row accumulator at column 1. -/
theorem claim_C1_counterexample :
    ¬ ((ditherPixel [((0:ℚ),(0:ℚ),(0:ℚ))] [(32:ℚ),0,0,255] 0
          ⟨[z3, z3], [z3, z3], []⟩ 0).errA.getD 1 z3 = (2, 0, 0) ∧
       (ditherPixel [((0:ℚ),(0:ℚ),(0:ℚ))] [(32:ℚ),0,0,255] 0
          ⟨[z3, z3], [z3, z3], []⟩ 0).errB.getD 1 z3 = (7, 0, 0) ∧
       (ditherPixel [((0:ℚ),(0:ℚ),(0:ℚ))] [(32:ℚ),0,0,255] 0
          ⟨[z3, z3], [z3, z3], []⟩ 0).errB.getD 0 z3 = (7, 0, 0)) := by
  intro h
  obtain ⟨h1, -, -⟩ := h
  simp only [ditherPixel, diffuse_left, bumpErr, addErrTriple, nearestIdx,
    nearestGo, ltBest, distSq, z3] at h1
  norm_num at h1

-- ------------------------------------------------------------------
-- Claims C2, C9: plane separation
-- ------------------------------------------------------------------

lemma makePlanes_fst_getD (rgba : List ℚ) (model : ModelName) (mode : Option Nat)
    (i : Nat) (hi : i < WIDTH * HEIGHT) :
    (makePlanes rgba model mode).1.getD i 1 =
      (planePixel rgba (triColorOf model mode) (accentFor (MODELS model)) i).1 := by
  simp only [makePlanes]
  rw [List.getD_eq_getElem _ _ (by simpa using hi), List.getElem_map, List.getElem_range]

lemma makePlanes_snd_getD (rgba : List ℚ) (model : ModelName) (mode : Option Nat)
    (i : Nat) (hi : i < WIDTH * HEIGHT) :
    (makePlanes rgba model mode).2.getD i 1 =
      (planePixel rgba (triColorOf model mode) (accentFor (MODELS model)) i).2 := by
  simp only [makePlanes]
  rw [List.getD_eq_getElem _ _ (by simpa using hi), List.getElem_map, List.getElem_range]

/-- Claim C2: for every RGBA buffer, model and mode, the two bit planes
produced by makePlanes are mutually exclusive at every pixel: the
dark-plane bit and the accent-plane bit are never both 0; a pixel with
ink (0) on the dark plane has 1 on the accent plane and vice versa; a
pixel matching neither pure black nor the accent rule has 1 on both
planes. -/
theorem claim_C2 (rgba : List ℚ) (model : ModelName) (mode : Option Nat)
    (i : Nat) (hi : i < WIDTH * HEIGHT) :
    (¬((makePlanes rgba model mode).1.getD i 1 = 0 ∧
       (makePlanes rgba model mode).2.getD i 1 = 0)) ∧
    ((makePlanes rgba model mode).1.getD i 1 = 0 →
      (makePlanes rgba model mode).2.getD i 1 = 1) ∧
    ((makePlanes rgba model mode).2.getD i 1 = 0 →
      (makePlanes rgba model mode).1.getD i 1 = 1) ∧
    ((¬(rgba.getD (i * 4) 0 = 0 ∧ rgba.getD (i * 4 + 1) 0 = 0 ∧
        rgba.getD (i * 4 + 2) 0 = 0)) →
     (¬((¬(rgba.getD (i * 4) 0 = 255 ∧ rgba.getD (i * 4 + 1) 0 = 255 ∧
           rgba.getD (i * 4 + 2) 0 = 255)) ∧
        triColorOf model mode = true ∧
        accentMatch (accentFor (MODELS model)) (rgba.getD (i * 4) 0)
          (rgba.getD (i * 4 + 1) 0) (rgba.getD (i * 4 + 2) 0) = true)) →
      (makePlanes rgba model mode).1.getD i 1 = 1 ∧
      (makePlanes rgba model mode).2.getD i 1 = 1) := by
  rw [makePlanes_fst_getD rgba model mode i hi, makePlanes_snd_getD rgba model mode i hi]
  simp only [planePixel]
  split_ifs with h1 h2 h3
  · exact ⟨by simp, by simp, by simp, fun _ _ => ⟨rfl, rfl⟩⟩
  · exact ⟨by simp, fun _ => rfl, by simp, fun hnb _ => absurd h2 hnb⟩
  · exact ⟨by simp, by simp, fun _ => rfl, fun _ hna => absurd h3 hna⟩
  · exact ⟨by simp, by simp, by simp, fun _ _ => ⟨rfl, rfl⟩⟩

theorem claim_C2_witness :
    (¬((makePlanes [] ModelName.epd1248B (some 3)).1.getD 0 1 = 0 ∧
       (makePlanes [] ModelName.epd1248B (some 3)).2.getD 0 1 = 0)) ∧
    ((makePlanes [] ModelName.epd1248B (some 3)).1.getD 0 1 = 0 →
      (makePlanes [] ModelName.epd1248B (some 3)).2.getD 0 1 = 1) ∧
    ((makePlanes [] ModelName.epd1248B (some 3)).2.getD 0 1 = 0 →
      (makePlanes [] ModelName.epd1248B (some 3)).1.getD 0 1 = 1) ∧
    ((¬(([] : List ℚ).getD (0 * 4) 0 = 0 ∧ ([] : List ℚ).getD (0 * 4 + 1) 0 = 0 ∧
        ([] : List ℚ).getD (0 * 4 + 2) 0 = 0)) →
     (¬((¬(([] : List ℚ).getD (0 * 4) 0 = 255 ∧ ([] : List ℚ).getD (0 * 4 + 1) 0 = 255 ∧
           ([] : List ℚ).getD (0 * 4 + 2) 0 = 255)) ∧
        triColorOf ModelName.epd1248B (some 3) = true ∧
        accentMatch (accentFor (MODELS ModelName.epd1248B)) (([] : List ℚ).getD (0 * 4) 0)
          (([] : List ℚ).getD (0 * 4 + 1) 0) (([] : List ℚ).getD (0 * 4 + 2) 0) = true)) →
      (makePlanes [] ModelName.epd1248B (some 3)).1.getD 0 1 = 1 ∧
      (makePlanes [] ModelName.epd1248B (some 3)).2.getD 0 1 = 1) :=
  claim_C2 [] ModelName.epd1248B (some 3) 0 (by decide)

/-- Claim C9: in plane separation, every source pixel whose alpha channel
is 0 gets the no-ink value 1 on both the dark plane and the accent plane,
regardless of its RGB value. -/
theorem claim_C9 (rgba : List ℚ) (model : ModelName) (mode : Option Nat)
    (i : Nat) (hi : i < WIDTH * HEIGHT) (ha : rgba.getD (i * 4 + 3) 0 = 0) :
    (makePlanes rgba model mode).1.getD i 1 = 1 ∧
    (makePlanes rgba model mode).2.getD i 1 = 1 := by
  rw [makePlanes_fst_getD rgba model mode i hi, makePlanes_snd_getD rgba model mode i hi]
  simp only [planePixel]
  rw [if_pos ha]
  exact ⟨rfl, rfl⟩

theorem claim_C9_witness :
    (makePlanes [] ModelName.epd1248C (some 1)).1.getD 5 1 = 1 ∧
    (makePlanes [] ModelName.epd1248C (some 1)).2.getD 5 1 = 1 :=
  claim_C9 [] ModelName.epd1248C (some 1) 5 (by decide) rfl

-- ------------------------------------------------------------------
-- Claim C7: bit packer
-- ------------------------------------------------------------------

lemma packToChars_cons4 (a b c d : Nat) (rest : List Nat) :
    packToChars (a :: b :: c :: d :: rest) =
      Char.ofNat (97 + (8 * (a &&& 1) + 4 * (b &&& 1) + 2 * (c &&& 1) + (d &&& 1))) ::
        packToChars rest := by
  simp only [packToChars, packLoop]
  norm_num [Nat.shiftLeft_eq]
  congr 1
  ring

lemma packToChars_one (a : Nat) :
    packToChars [a] = [Char.ofNat (97 + 8 * (a &&& 1))] := by
  simp only [packToChars, packLoop]
  norm_num [Nat.shiftLeft_eq]
  congr 1
  ring

lemma packToChars_two (a b : Nat) :
    packToChars [a, b] = [Char.ofNat (97 + 8 * (a &&& 1) + 4 * (b &&& 1))] := by
  simp only [packToChars, packLoop]
  norm_num [Nat.shiftLeft_eq]
  congr 1
  ring

lemma packToChars_three (a b c : Nat) :
    packToChars [a, b, c] =
      [Char.ofNat (97 + 8 * (a &&& 1) + 4 * (b &&& 1) + 2 * (c &&& 1))] := by
  simp only [packToChars, packLoop]
  norm_num [Nat.shiftLeft_eq]
  congr 1
  ring

lemma packToChars_length (bits : List Nat) :
    (packToChars bits).length = (bits.length + 3) / 4 := by
  suffices h : ∀ n (bits : List Nat), bits.length ≤ n →
      (packToChars bits).length = (bits.length + 3) / 4 from
    h bits.length bits le_rfl
  intro n
  induction n with
  | zero =>
    intro bits hb
    have hnil : bits = [] := List.length_eq_zero.mp (by omega)
    subst hnil
    simp [packToChars, packLoop]
  | succ n ih =>
    intro bits hb
    match bits with
    | [] => simp [packToChars, packLoop]
    | [a] => rw [packToChars_one]; norm_num
    | [a, b] => rw [packToChars_two]; norm_num
    | [a, b, c] => rw [packToChars_three]; norm_num
    | a :: b :: c :: d :: rest =>
      rw [packToChars_cons4, List.length_cons]
      rw [ih rest (by simp only [List.length_cons] at hb; omega)]
      simp only [List.length_cons]
      omega

lemma getD_cons4 {α : Type} (a b c d : α) (l : List α) (n : Nat) (z : α) :
    (a :: b :: c :: d :: l).getD (n + 4) z = l.getD n z := by
  show (a :: b :: c :: d :: l).getD (n + 1 + 1 + 1 + 1) z = l.getD n z
  simp [List.getD_cons_succ]

lemma packToChars_getD : ∀ (g : Nat) (bits : List Nat), g < (bits.length + 3) / 4 →
    (packToChars bits).getD g 'a' =
      Char.ofNat (97 + 8 * (bits.getD (4 * g) 0 &&& 1) + 4 * (bits.getD (4 * g + 1) 0 &&& 1) +
        2 * (bits.getD (4 * g + 2) 0 &&& 1) + (bits.getD (4 * g + 3) 0 &&& 1)) := by
  intro g
  induction g with
  | zero =>
    intro bits hg
    match bits with
    | [] => simp [packToChars, packLoop] at hg
    | [a] =>
      rw [packToChars_one]
      norm_num
    | [a, b] =>
      rw [packToChars_two]
      norm_num
    | [a, b, c] =>
      rw [packToChars_three]
      norm_num
    | a :: b :: c :: d :: rest =>
      rw [packToChars_cons4]
      norm_num
      congr 1
      ring
  | succ g ih =>
    intro bits hg
    match bits with
    | [] =>
      simp only [List.length_nil] at hg
      omega
    | [a] =>
      simp only [List.length_cons, List.length_nil] at hg
      omega
    | [a, b] =>
      simp only [List.length_cons, List.length_nil] at hg
      omega
    | [a, b, c] =>
      simp only [List.length_cons, List.length_nil] at hg
      omega
    | a :: b :: c :: d :: rest =>
      rw [packToChars_cons4, List.getD_cons_succ]
      have e0 : 4 * (g + 1) = 4 * g + 4 := by ring
      have e1 : 4 * (g + 1) + 1 = 4 * g + 1 + 4 := by ring
      have e2 : 4 * (g + 1) + 2 = 4 * g + 2 + 4 := by ring
      have e3 : 4 * (g + 1) + 3 = 4 * g + 3 + 4 := by ring
      rw [e1, e2, e3, e0, getD_cons4, getD_cons4, getD_cons4, getD_cons4]
      apply ih rest
      simp only [List.length_cons] at hg
      omega

/-- Claim C7: for every bit plane, the packer emits exactly
ceil(n/4) = (n+3)/4 characters; the character at group index g is the
code for lowercase a (97) plus the nibble built MSB-first from the four
consecutive bits starting at 4g, with bits beyond the end of a partial
final group read as zero. -/
theorem claim_C7 (bits : List Nat) :
    (packToChars bits).length = (bits.length + 3) / 4 ∧
    (∀ g, g < (bits.length + 3) / 4 →
      (packToChars bits).getD g 'a' =
        Char.ofNat (97 + 8 * (bits.getD (4 * g) 0 &&& 1) +
          4 * (bits.getD (4 * g + 1) 0 &&& 1) +
          2 * (bits.getD (4 * g + 2) 0 &&& 1) + (bits.getD (4 * g + 3) 0 &&& 1))) :=
  ⟨packToChars_length bits, fun g hg => packToChars_getD g bits hg⟩

theorem claim_C7_witness :
    (packToChars [1, 0, 1]).length = (([1, 0, 1] : List Nat).length + 3) / 4 ∧
    (packToChars [1, 0, 1]).getD 0 'a' =
      Char.ofNat (97 + 8 * (([1, 0, 1] : List Nat).getD (4 * 0) 0 &&& 1) +
        4 * (([1, 0, 1] : List Nat).getD (4 * 0 + 1) 0 &&& 1) +
        2 * (([1, 0, 1] : List Nat).getD (4 * 0 + 2) 0 &&& 1) +
        (([1, 0, 1] : List Nat).getD (4 * 0 + 3) 0 &&& 1)) :=
  ⟨(claim_C7 [1, 0, 1]).1, (claim_C7 [1, 0, 1]).2 0 (by decide)⟩

-- ------------------------------------------------------------------
-- Claim C8: quantizer output guarantees
-- ------------------------------------------------------------------

lemma nearestIdx_getD_mem (r g b : ℚ) (pal : List RGB3) (hpal : pal ≠ []) :
    pal.getD (nearestIdx r g b pal) z3 ∈ pal := by
  have h := (nearestIdx_spec r g b pal hpal).1
  rw [List.getD_eq_getElem pal z3 h]
  exact List.getElem_mem h

lemma append4_preserves (pal : List RGB3) (out : List ℚ) (c : RGB3)
    (hc : c ∈ pal) (hmod : out.length % 4 = 0)
    (hgood : ∀ p, 4 * p + 3 < out.length → palettePixelAt pal out p) :
    (out ++ [c.1, c.2.1, c.2.2, 255]).length % 4 = 0 ∧
    (∀ p, 4 * p + 3 < (out ++ [c.1, c.2.1, c.2.2, 255]).length →
      palettePixelAt pal (out ++ [c.1, c.2.1, c.2.2, 255]) p) := by
  constructor
  · simp only [List.length_append, List.length_cons, List.length_nil]
    omega
  · intro p hp
    simp only [List.length_append, List.length_cons, List.length_nil] at hp
    by_cases hlt : 4 * p + 3 < out.length
    · obtain ⟨⟨cc, hcc, h0, h1, h2⟩, h3⟩ := hgood p hlt
      refine ⟨⟨cc, hcc, ?_, ?_, ?_⟩, ?_⟩ <;>
        rw [List.getD_append _ _ _ _ (by omega)]
      · exact h0
      · exact h1
      · exact h2
      · exact h3
    · obtain ⟨q, hq⟩ : ∃ q, out.length = 4 * q := ⟨out.length / 4, by omega⟩
      have hpq : p = q := by omega
      subst hpq
      refine ⟨⟨c, hc, ?_, ?_, ?_⟩, ?_⟩
      · rw [List.getD_append_right _ _ _ _ (by omega)]
        have h4 : 4 * p - out.length = 0 := by omega
        rw [h4]
        rfl
      · rw [List.getD_append_right _ _ _ _ (by omega)]
        have h4 : 4 * p + 1 - out.length = 1 := by omega
        rw [h4]
        rfl
      · rw [List.getD_append_right _ _ _ _ (by omega)]
        have h4 : 4 * p + 2 - out.length = 2 := by omega
        rw [h4]
        rfl
      · rw [List.getD_append_right _ _ _ _ (by omega)]
        have h4 : 4 * p + 3 - out.length = 3 := by omega
        rw [h4]
        rfl

lemma ditherPixel_inv (pal : List RGB3) (buf : List ℚ) (y : Nat)
    (hpal : pal ≠ []) (st : DitherState) (x : Nat)
    (h : st.out.length % 4 = 0 ∧
      ∀ p, 4 * p + 3 < st.out.length → palettePixelAt pal st.out p) :
    (ditherPixel pal buf y st x).out.length % 4 = 0 ∧
    (∀ p, 4 * p + 3 < (ditherPixel pal buf y st x).out.length →
      palettePixelAt pal (ditherPixel pal buf y st x).out p) := by
  have hout : (ditherPixel pal buf y st x).out =
      st.out ++ [(pal.getD (nearestIdx (buf.getD ((y * WIDTH + x) * 4) 0 + (st.errA.getD x z3).1)
          (buf.getD ((y * WIDTH + x) * 4 + 1) 0 + (st.errA.getD x z3).2.1)
          (buf.getD ((y * WIDTH + x) * 4 + 2) 0 + (st.errA.getD x z3).2.2) pal) z3).1,
        (pal.getD (nearestIdx (buf.getD ((y * WIDTH + x) * 4) 0 + (st.errA.getD x z3).1)
          (buf.getD ((y * WIDTH + x) * 4 + 1) 0 + (st.errA.getD x z3).2.1)
          (buf.getD ((y * WIDTH + x) * 4 + 2) 0 + (st.errA.getD x z3).2.2) pal) z3).2.1,
        (pal.getD (nearestIdx (buf.getD ((y * WIDTH + x) * 4) 0 + (st.errA.getD x z3).1)
          (buf.getD ((y * WIDTH + x) * 4 + 1) 0 + (st.errA.getD x z3).2.1)
          (buf.getD ((y * WIDTH + x) * 4 + 2) 0 + (st.errA.getD x z3).2.2) pal) z3).2.2, 255] := rfl
  rw [hout]
  exact append4_preserves pal st.out _ (nearestIdx_getD_mem _ _ _ pal hpal) h.1 h.2

lemma foldl_ditherPixel_inv (pal : List RGB3) (buf : List ℚ) (y : Nat)
    (hpal : pal ≠ []) :
    ∀ (l : List Nat) (st : DitherState),
      (st.out.length % 4 = 0 ∧
        (∀ p, 4 * p + 3 < st.out.length → palettePixelAt pal st.out p)) →
      ((l.foldl (ditherPixel pal buf y) st).out.length % 4 = 0 ∧
        (∀ p, 4 * p + 3 < (l.foldl (ditherPixel pal buf y) st).out.length →
          palettePixelAt pal (l.foldl (ditherPixel pal buf y) st).out p)) := by
  intro l
  induction l with
  | nil => intro st h; exact h
  | cons a l ih =>
    intro st h
    rw [List.foldl_cons]
    exact ih (ditherPixel pal buf y st a) (ditherPixel_inv pal buf y hpal st a h)

lemma ditherRow_inv (pal : List RGB3) (buf : List ℚ) (hpal : pal ≠ [])
    (st : DitherState) (y : Nat)
    (h : st.out.length % 4 = 0 ∧
      ∀ p, 4 * p + 3 < st.out.length → palettePixelAt pal st.out p) :
    (ditherRow pal buf st y).out.length % 4 = 0 ∧
    (∀ p, 4 * p + 3 < (ditherRow pal buf st y).out.length →
      palettePixelAt pal (ditherRow pal buf st y).out p) := by
  unfold ditherRow
  exact foldl_ditherPixel_inv pal buf y hpal (List.range WIDTH)
    ⟨st.errB, List.replicate WIDTH z3, st.out⟩ h

lemma quantizeDitherWeb_good (rgba : List ℚ) (pal : List RGB3) (hpal : pal ≠ []) :
    (quantizeDitherWeb rgba pal).length % 4 = 0 ∧
    (∀ p, 4 * p + 3 < (quantizeDitherWeb rgba pal).length →
      palettePixelAt pal (quantizeDitherWeb rgba pal) p) := by
  unfold quantizeDitherWeb
  have hrows : ∀ (l : List Nat) (st : DitherState),
      (st.out.length % 4 = 0 ∧
        (∀ p, 4 * p + 3 < st.out.length → palettePixelAt pal st.out p)) →
      ((l.foldl (ditherRow pal rgba) st).out.length % 4 = 0 ∧
        (∀ p, 4 * p + 3 < (l.foldl (ditherRow pal rgba) st).out.length →
          palettePixelAt pal (l.foldl (ditherRow pal rgba) st).out p)) := by
    intro l
    induction l with
    | nil => intro st h; exact h
    | cons a l ih =>
      intro st h
      rw [List.foldl_cons]
      exact ih (ditherRow pal rgba st a) (ditherRow_inv pal rgba hpal st a h)
  exact hrows (List.range HEIGHT)
    ⟨List.replicate WIDTH z3, List.replicate WIDTH z3, []⟩
    (by constructor <;> simp)

lemma ditherPixel_out_length (pal : List RGB3) (buf : List ℚ) (y : Nat)
    (st : DitherState) (x : Nat) :
    (ditherPixel pal buf y st x).out.length = st.out.length + 4 := by
  simp [ditherPixel]

lemma foldl_ditherPixel_length (pal : List RGB3) (buf : List ℚ) (y : Nat) :
    ∀ (l : List Nat) (st : DitherState),
      (l.foldl (ditherPixel pal buf y) st).out.length = st.out.length + 4 * l.length := by
  intro l
  induction l with
  | nil => intro st; simp
  | cons a l ih =>
    intro st
    rw [List.foldl_cons, ih, ditherPixel_out_length]
    simp only [List.length_cons]
    ring

lemma ditherRow_length (pal : List RGB3) (buf : List ℚ) (st : DitherState) (y : Nat) :
    (ditherRow pal buf st y).out.length = st.out.length + 4 * WIDTH := by
  unfold ditherRow
  rw [foldl_ditherPixel_length]
  simp

lemma foldl_ditherRow_length (pal : List RGB3) (buf : List ℚ) :
    ∀ (l : List Nat) (st : DitherState),
      (l.foldl (ditherRow pal buf) st).out.length = st.out.length + 4 * WIDTH * l.length := by
  intro l
  induction l with
  | nil => intro st; simp
  | cons a l ih =>
    intro st
    rw [List.foldl_cons, ih, ditherRow_length]
    simp only [List.length_cons]
    ring

lemma quantizeDitherWeb_length (rgba : List ℚ) (pal : List RGB3) :
    (quantizeDitherWeb rgba pal).length = 4 * WIDTH * HEIGHT := by
  unfold quantizeDitherWeb
  rw [foldl_ditherRow_length]
  simp

lemma quantizeLevelWeb_good (rgba : List ℚ) (pal : List RGB3) (hpal : pal ≠ [])
    (p : Nat) (hp : p < WIDTH * HEIGHT) :
    palettePixelAt pal (quantizeLevelWeb rgba pal) p := by
  have hWpos : 0 < WIDTH := by norm_num [WIDTH]
  have hx : p % WIDTH < WIDTH := Nat.mod_lt p hWpos
  have hy : p / WIDTH < HEIGHT := Nat.div_lt_of_lt_mul hp
  have hdecomp : p = p / WIDTH * WIDTH + p % WIDTH := by
    rw [Nat.mul_comm]
    exact (Nat.div_add_mod p WIDTH).symm
  have key : ∀ c : Nat, c < 4 →
      (quantizeLevelWeb rgba pal).getD (4 * p + c) 0 =
        (levelPixel rgba pal (p / WIDTH) (p % WIDTH)).getD c 0 := by
    intro c hc
    have h := quantizeLevelWeb_getD rgba pal (p % WIDTH) (p / WIDTH) c hx hy hc
    have e : (p / WIDTH * WIDTH + p % WIDTH) * 4 + c = 4 * p + c := by
      rw [← hdecomp]
      ring
    rw [e] at h
    exact h
  have k0 := key 0 (by omega)
  have k1 := key 1 (by omega)
  have k2 := key 2 (by omega)
  have k3 := key 3 (by omega)
  rw [Nat.add_zero] at k0
  refine ⟨⟨pal.getD (nearestIdx (rgba.getD ((p / WIDTH * WIDTH + p % WIDTH) * 4) 0)
      (rgba.getD ((p / WIDTH * WIDTH + p % WIDTH) * 4 + 1) 0)
      (rgba.getD ((p / WIDTH * WIDTH + p % WIDTH) * 4 + 2) 0) pal) z3,
    nearestIdx_getD_mem _ _ _ pal hpal, ?_, ?_, ?_⟩, ?_⟩
  · rw [k0]; rfl
  · rw [k1]; rfl
  · rw [k2]; rfl
  · rw [k3]; rfl

/-- Claim C8: for every input RGBA buffer of the panel size, every
non-empty palette, and both quantization modes (flat quantizeLevelWeb
and dithered quantizeDitherWeb), the output has the same length (hence
pixel count and ordering) as the input, every output pixel's RGB exactly
equals some entry of the palette, and every output pixel's alpha is
fully opaque (255). -/
theorem claim_C8 (rgba : List ℚ) (pal : List RGB3) (hpal : pal ≠ [])
    (hlen : rgba.length = 4 * (WIDTH * HEIGHT)) :
    (quantizeLevelWeb rgba pal).length = rgba.length ∧
    (quantizeDitherWeb rgba pal).length = rgba.length ∧
    (∀ p, p < WIDTH * HEIGHT →
      palettePixelAt pal (quantizeLevelWeb rgba pal) p ∧
      palettePixelAt pal (quantizeDitherWeb rgba pal) p) := by
  refine ⟨?_, ?_, ?_⟩
  · rw [quantizeLevelWeb_length, hlen]
    ring
  · rw [quantizeDitherWeb_length, hlen]
    ring
  · intro p hp
    refine ⟨quantizeLevelWeb_good rgba pal hpal p hp, ?_⟩
    refine (quantizeDitherWeb_good rgba pal hpal).2 p ?_
    rw [quantizeDitherWeb_length, Nat.mul_assoc]
    calc 4 * p + 3 < 4 * p + 4 := by omega
      _ = 4 * (p + 1) := by ring
      _ ≤ 4 * (WIDTH * HEIGHT) := Nat.mul_le_mul_left 4 (Nat.succ_le_of_lt hp)

theorem claim_C8_witness :
    (quantizeLevelWeb (List.replicate (4 * (WIDTH * HEIGHT)) 0)
        [((0:ℚ),(0:ℚ),(0:ℚ)), (255,255,255)]).length =
      (List.replicate (4 * (WIDTH * HEIGHT)) (0:ℚ)).length ∧
    (quantizeDitherWeb (List.replicate (4 * (WIDTH * HEIGHT)) 0)
        [((0:ℚ),(0:ℚ),(0:ℚ)), (255,255,255)]).length =
      (List.replicate (4 * (WIDTH * HEIGHT)) (0:ℚ)).length ∧
    (∀ p, p < WIDTH * HEIGHT →
      palettePixelAt [((0:ℚ),(0:ℚ),(0:ℚ)), (255,255,255)]
        (quantizeLevelWeb (List.replicate (4 * (WIDTH * HEIGHT)) 0)
          [((0:ℚ),(0:ℚ),(0:ℚ)), (255,255,255)]) p ∧
      palettePixelAt [((0:ℚ),(0:ℚ),(0:ℚ)), (255,255,255)]
        (quantizeDitherWeb (List.replicate (4 * (WIDTH * HEIGHT)) 0)
          [((0:ℚ),(0:ℚ),(0:ℚ)), (255,255,255)]) p) :=
  claim_C8 (List.replicate (4 * (WIDTH * HEIGHT)) 0)
    [((0:ℚ),(0:ℚ),(0:ℚ)), (255,255,255)] (by simp) (by simp)

-- ------------------------------------------------------------------
-- Claim C4: upload protocol trace
-- ------------------------------------------------------------------

lemma makePlanes_fst_length (rgba : List ℚ) (model : ModelName) (mode : Option Nat) :
    (makePlanes rgba model mode).1.length = WIDTH * HEIGHT := by
  simp [makePlanes]

lemma makePlanes_snd_length (rgba : List ℚ) (model : ModelName) (mode : Option Nat) :
    (makePlanes rgba model mode).2.length = WIDTH * HEIGHT := by
  simp [makePlanes]

lemma reorderFor1248_ok (msg : List Char) (h : msg.length = XSTR * HEIGHT) :
    reorderFor1248 msg = .ok
      (rowSlices msg XSTR 0 LEFT_NIBBLES 0 TOP_HALF_ROWS ++
       rowSlices msg XSTR LEFT_NIBBLES XSTR 0 TOP_HALF_ROWS ++
       rowSlices msg XSTR 0 LEFT_NIBBLES TOP_HALF_ROWS (HEIGHT - TOP_HALF_ROWS) ++
       rowSlices msg XSTR LEFT_NIBBLES XSTR TOP_HALF_ROWS (HEIGHT - TOP_HALF_ROWS)) := by
  rw [reorderFor1248, if_neg (fun hne => hne h)]

lemma chunk_join (n : Nat) (hn : n ≠ 0) (s : List Char) :
    (chunk s n).flatten = s := by
  suffices h : ∀ (fuel : Nat) (s : List Char), s.length ≤ fuel →
      (chunk s n).flatten = s from h s.length s le_rfl
  intro fuel
  induction fuel with
  | zero =>
    intro s hs
    have hnil : s = [] := List.length_eq_zero.mp (by omega)
    subst hnil
    rw [chunk]
    simp
  | succ fuel ih =>
    intro s hs
    rw [chunk]
    by_cases he : s.isEmpty ∨ n = 0
    · rcases he with he | he
      · rw [if_pos (Or.inl he)]
        rw [List.isEmpty_iff.mp he]
        rfl
      · exact absurd he hn
    · rw [if_neg he]
      simp only [List.flatten_cons]
      rw [ih (s.drop n) (by simp only [List.length_drop]; omega)]
      exact List.take_append_drop n s

lemma chunk_mem_le (n : Nat) (s : List Char) :
    ∀ c ∈ chunk s n, c.length ≤ n := by
  suffices h : ∀ (fuel : Nat) (s : List Char), s.length ≤ fuel →
      ∀ c ∈ chunk s n, c.length ≤ n from h s.length s le_rfl
  intro fuel
  induction fuel with
  | zero =>
    intro s hs c hc
    have hnil : s = [] := List.length_eq_zero.mp (by omega)
    subst hnil
    rw [chunk] at hc
    simp at hc
  | succ fuel ih =>
    intro s hs c hc
    rw [chunk] at hc
    by_cases he : s.isEmpty ∨ n = 0
    · rw [if_pos he] at hc
      simp at hc
    · rw [if_neg he] at hc
      push_neg at he
      rcases List.mem_cons.mp hc with hceq | hcmem
      · subst hceq
        simp only [List.length_take]
        omega
      · exact ih (s.drop n) (by simp only [List.length_drop]; omega) c hcmem

lemma issueAll_all_ok (respond : Req → Bool) :
    ∀ (reqs : List Req), (∀ r ∈ reqs, respond r = true) →
      issueAll respond reqs = (reqs, true) := by
  intro reqs
  induction reqs with
  | nil => intro _; rfl
  | cons r rs ih =>
    intro h
    simp only [issueAll]
    rw [if_pos (h r (List.mem_cons_self r rs)),
      ih (fun q hq => h q (List.mem_cons_of_mem r hq))]

lemma issueAll_abort (respond : Req → Bool) (bad : Req) (post : List Req)
    (hbad : respond bad = false) :
    ∀ (pre : List Req), (∀ r ∈ pre, respond r = true) →
      issueAll respond (pre ++ bad :: post) = (pre ++ [bad], false) := by
  intro pre
  induction pre with
  | nil =>
    intro _
    simp only [List.nil_append, issueAll]
    rw [if_neg (by simp [hbad])]
  | cons r rs ih =>
    intro h
    rw [List.cons_append]
    simp only [issueAll]
    rw [if_pos (h r (List.mem_cons_self r rs)),
      ih (fun q hq => h q (List.mem_cons_of_mem r hq))]
    simp

lemma uploadImageBuffer_eq (respond : Req → Bool) (model : ModelName)
    (rgba : List ℚ) (mode : Nat) :
    uploadImageBuffer respond model rgba mode =
      uploadPlanned respond model
        (reorderFor1248 (packToChars (makePlanes rgba model (some mode)).1))
        (if MODELS model ≠ 0 then
          reorderFor1248 (packToChars (makePlanes rgba model (some mode)).2)
         else .ok []) := rfl

lemma uploadPlanned_ok_ok (respond : Req → Bool) (model : ModelName)
    (b r : List Char) :
    uploadPlanned respond model (.ok b) (.ok r) =
      .ok (issueAll respond
        ([⟨"EPD", modelString model⟩] ++
         (chunk b CHUNK_SIZE).map (fun c => ⟨"LOADA", c⟩) ++
         (if MODELS model ≠ 0 then
           (chunk r CHUNK_SIZE).map (fun c => ⟨"LOADB", c⟩)
          else []) ++
         [⟨"SHOW", modelString model⟩])) := rfl

/-- Claim C4: a successful upload issues exactly one POST to EPD carrying
the model string, then the LOADA chunks (successive at-most-30000-character
slices of the dark-plane device frame, concatenating back to it in order),
then, only for color-capable models, the LOADB chunks of the accent-plane
frame, then one POST to SHOW, in that exact order; if any request gets a
failure response, the trace stops at that request and no further requests
are issued. -/
theorem claim_C4 (respond : Req → Bool) (model : ModelName) (rgba : List ℚ)
    (mode : Nat) :
    ∃ bOrd rOrd : List Char,
      reorderFor1248 (packToChars (makePlanes rgba model (some mode)).1) =
        Except.ok bOrd ∧
      (MODELS model ≠ 0 →
        reorderFor1248 (packToChars (makePlanes rgba model (some mode)).2) =
          Except.ok rOrd) ∧
      (MODELS model = 0 → rOrd = []) ∧
      (chunk bOrd CHUNK_SIZE).flatten = bOrd ∧
      (∀ c ∈ chunk bOrd CHUNK_SIZE, c.length ≤ CHUNK_SIZE) ∧
      (chunk rOrd CHUNK_SIZE).flatten = rOrd ∧
      (∀ c ∈ chunk rOrd CHUNK_SIZE, c.length ≤ CHUNK_SIZE) ∧
      (∀ planned : List Req,
        planned =
          [⟨"EPD", modelString model⟩] ++
            (chunk bOrd CHUNK_SIZE).map (fun c => ⟨"LOADA", c⟩) ++
            (if MODELS model ≠ 0 then
              (chunk rOrd CHUNK_SIZE).map (fun c => ⟨"LOADB", c⟩)
             else []) ++
            [⟨"SHOW", modelString model⟩] →
        ((∀ r ∈ planned, respond r = true) →
          uploadImageBuffer respond model rgba mode = Except.ok (planned, true)) ∧
        (∀ pre bad post, planned = pre ++ bad :: post →
          (∀ r ∈ pre, respond r = true) → respond bad = false →
          uploadImageBuffer respond model rgba mode =
            Except.ok (pre ++ [bad], false))) := by
  have hCS : CHUNK_SIZE ≠ 0 := by norm_num [CHUNK_SIZE]
  have hb_len : (packToChars (makePlanes rgba model (some mode)).1).length =
      XSTR * HEIGHT := by
    rw [packToChars_length, makePlanes_fst_length]
    norm_num [WIDTH, HEIGHT, XSTR]
  have hbok := reorderFor1248_ok _ hb_len
  by_cases hc : MODELS model = 0
  · refine ⟨_, [], hbok, fun hne => absurd hc hne, fun _ => rfl,
      chunk_join CHUNK_SIZE hCS _, chunk_mem_le CHUNK_SIZE _,
      chunk_join CHUNK_SIZE hCS [], chunk_mem_le CHUNK_SIZE [], ?_⟩
    intro planned hplan
    have hupload : uploadImageBuffer respond model rgba mode =
        Except.ok (issueAll respond planned) := by
      rw [hplan]
      rw [uploadImageBuffer_eq, hbok, hc]
      rw [if_neg (show ¬((0:Nat) ≠ 0) from fun h => h rfl)]
      rw [uploadPlanned_ok_ok, hc]
    refine ⟨?_, ?_⟩
    · intro hall
      rw [hupload, issueAll_all_ok respond planned hall]
    · intro pre bad post hsplit hpre hbad
      rw [hupload, hsplit, issueAll_abort respond bad post hbad pre hpre]
  · have hr_len : (packToChars (makePlanes rgba model (some mode)).2).length =
        XSTR * HEIGHT := by
      rw [packToChars_length, makePlanes_snd_length]
      norm_num [WIDTH, HEIGHT, XSTR]
    have hrok := reorderFor1248_ok _ hr_len
    refine ⟨_, _, hbok, fun _ => hrok, fun h0 => absurd h0 hc,
      chunk_join CHUNK_SIZE hCS _, chunk_mem_le CHUNK_SIZE _,
      chunk_join CHUNK_SIZE hCS _, chunk_mem_le CHUNK_SIZE _, ?_⟩
    intro planned hplan
    have hupload : uploadImageBuffer respond model rgba mode =
        Except.ok (issueAll respond planned) := by
      rw [hplan]
      rw [uploadImageBuffer_eq, hbok, if_pos hc, hrok, uploadPlanned_ok_ok,
        if_pos hc]
    refine ⟨?_, ?_⟩
    · intro hall
      rw [hupload, issueAll_all_ok respond planned hall]
    · intro pre bad post hsplit hpre hbad
      rw [hupload, hsplit, issueAll_abort respond bad post hbad pre hpre]

theorem claim_C4_witness :
    ∃ bOrd rOrd : List Char,
      reorderFor1248 (packToChars (makePlanes [] ModelName.epd1248 (some 2)).1) =
        Except.ok bOrd ∧
      (MODELS ModelName.epd1248 ≠ 0 →
        reorderFor1248 (packToChars (makePlanes [] ModelName.epd1248 (some 2)).2) =
          Except.ok rOrd) ∧
      (MODELS ModelName.epd1248 = 0 → rOrd = []) ∧
      (chunk bOrd CHUNK_SIZE).flatten = bOrd ∧
      (∀ c ∈ chunk bOrd CHUNK_SIZE, c.length ≤ CHUNK_SIZE) ∧
      (chunk rOrd CHUNK_SIZE).flatten = rOrd ∧
      (∀ c ∈ chunk rOrd CHUNK_SIZE, c.length ≤ CHUNK_SIZE) ∧
      (∀ planned : List Req,
        planned =
          [⟨"EPD", modelString ModelName.epd1248⟩] ++
            (chunk bOrd CHUNK_SIZE).map (fun c => ⟨"LOADA", c⟩) ++
            (if MODELS ModelName.epd1248 ≠ 0 then
              (chunk rOrd CHUNK_SIZE).map (fun c => ⟨"LOADB", c⟩)
             else []) ++
            [⟨"SHOW", modelString ModelName.epd1248⟩] →
        ((∀ r ∈ planned, (fun _ : Req => true) r = true) →
          uploadImageBuffer (fun _ => true) ModelName.epd1248 [] 2 =
            Except.ok (planned, true)) ∧
        (∀ pre bad post, planned = pre ++ bad :: post →
          (∀ r ∈ pre, (fun _ : Req => true) r = true) →
          (fun _ : Req => true) bad = false →
          uploadImageBuffer (fun _ => true) ModelName.epd1248 [] 2 =
            Except.ok (pre ++ [bad], false))) :=
  claim_C4 (fun _ => true) ModelName.epd1248 [] 2

-- ------------------------------------------------------------------
-- Claim C3: geometry reordering is a permutation with explicit inverse
-- ------------------------------------------------------------------

lemma sliceL_append (msg : List Char) (p q r : Nat) (hpq : p ≤ q) (hqr : q ≤ r) :
    sliceL msg p q ++ sliceL msg q r = sliceL msg p r := by
  unfold sliceL
  have h1 : r - p = (q - p) + (r - q) := by omega
  rw [h1, List.take_add, List.drop_drop]
  have h2 : p + (q - p) = q := by omega
  rw [h2]

lemma sliceL_length (msg : List Char) (p q : Nat) (h : q ≤ msg.length) (hpq : p ≤ q) :
    (sliceL msg p q).length = q - p := by
  unfold sliceL
  rw [List.length_take, List.length_drop]
  have h2 : q - p ≤ msg.length - p := by omega
  exact Nat.min_eq_left h2

lemma perm_middle_swap {α : Type} (w x y z : List α) :
    ((w ++ x) ++ (y ++ z)).Perm ((w ++ y) ++ (x ++ z)) := by
  rw [List.append_assoc w x, List.append_assoc w y]
  apply List.Perm.append_left
  rw [← List.append_assoc x y z, ← List.append_assoc y x z]
  exact List.perm_append_comm.append_right z

lemma rowSlices_perm (msg : List Char) (rowLen a c b : Nat)
    (hac : a ≤ c) (hcb : c ≤ b) :
    ∀ (n lo : Nat),
      (rowSlices msg rowLen a c lo n ++ rowSlices msg rowLen c b lo n).Perm
        (rowSlices msg rowLen a b lo n) := by
  intro n
  induction n with
  | zero =>
    intro lo
    simp [rowSlices]
  | succ n ih =>
    intro lo
    simp only [rowSlices]
    refine List.Perm.trans (perm_middle_swap _ _ _ _) ?_
    rw [sliceL_append msg _ _ _ (by omega) (by omega)]
    exact (ih (lo + 1)).append_left _

lemma rowSlices_full (msg : List Char) (rowLen : Nat) :
    ∀ (n lo : Nat),
      rowSlices msg rowLen 0 rowLen lo n =
        sliceL msg (lo * rowLen) ((lo + n) * rowLen) := by
  intro n
  induction n with
  | zero =>
    intro lo
    have e : (lo + 0) * rowLen = lo * rowLen := by ring
    simp [rowSlices, sliceL, e]
  | succ n ih =>
    intro lo
    simp only [rowSlices]
    rw [ih (lo + 1)]
    have e1 : lo * rowLen + 0 = lo * rowLen := by ring
    have e2 : lo * rowLen + rowLen = (lo + 1) * rowLen := by ring
    rw [e1, e2]
    rw [sliceL_append msg (lo * rowLen) ((lo + 1) * rowLen) ((lo + 1 + n) * rowLen)
      (Nat.mul_le_mul_right rowLen (by omega))
      (Nat.mul_le_mul_right rowLen (by omega))]
    have e3 : (lo + 1 + n) * rowLen = (lo + (n + 1)) * rowLen := by ring
    rw [e3]

lemma rowSlices_length (msg : List Char) (rowLen a b : Nat)
    (hab : a ≤ b) (hbr : b ≤ rowLen) :
    ∀ (n lo : Nat), (lo + n) * rowLen ≤ msg.length →
      (rowSlices msg rowLen a b lo n).length = n * (b - a) := by
  intro n
  induction n with
  | zero =>
    intro lo _
    simp [rowSlices]
  | succ n ih =>
    intro lo hlen
    simp only [rowSlices, List.length_append]
    have hb : lo * rowLen + b ≤ msg.length := by
      calc lo * rowLen + b ≤ lo * rowLen + rowLen := by omega
        _ = (lo + 1) * rowLen := by ring
        _ ≤ (lo + (n + 1)) * rowLen := Nat.mul_le_mul_right rowLen (by omega)
        _ ≤ msg.length := hlen
    rw [sliceL_length msg _ _ hb (by omega)]
    rw [ih (lo + 1) (by
      calc (lo + 1 + n) * rowLen = (lo + (n + 1)) * rowLen := by ring
        _ ≤ msg.length := hlen)]
    have e : lo * rowLen + b - (lo * rowLen + a) = b - a :=
      Nat.add_sub_add_left (lo * rowLen) b a
    rw [e]
    ring

lemma take_append_of_length {α : Type} (u v : List α) (n : Nat)
    (h : u.length = n) : (u ++ v).take n = u := by
  subst h
  exact List.take_left u v

lemma drop_append_of_length {α : Type} (u v : List α) (n : Nat)
    (h : u.length = n) : (u ++ v).drop n = v := by
  subst h
  exact List.drop_left u v

lemma colsMerge_rowSlices (msg : List Char) (rowLen k : Nat) (hk : k ≤ rowLen) :
    ∀ (n lo : Nat), (lo + n) * rowLen ≤ msg.length →
      colsMerge (rowSlices msg rowLen 0 k lo n) (rowSlices msg rowLen k rowLen lo n)
        k (rowLen - k) n = sliceL msg (lo * rowLen) ((lo + n) * rowLen) := by
  intro n
  induction n with
  | zero =>
    intro lo _
    have e : (lo + 0) * rowLen = lo * rowLen := by ring
    simp [colsMerge, rowSlices, sliceL, e]
  | succ n ih =>
    intro lo hlen
    simp only [rowSlices, colsMerge]
    have hrow : lo * rowLen + rowLen ≤ msg.length := by
      calc lo * rowLen + rowLen = (lo + 1) * rowLen := by ring
        _ ≤ (lo + (n + 1)) * rowLen := Nat.mul_le_mul_right rowLen (by omega)
        _ ≤ msg.length := hlen
    have hS1 : (sliceL msg (lo * rowLen + 0) (lo * rowLen + k)).length = k := by
      rw [sliceL_length msg _ _ (by omega) (by omega)]
      omega
    have hS2 : (sliceL msg (lo * rowLen + k) (lo * rowLen + rowLen)).length
        = rowLen - k := by
      rw [sliceL_length msg _ _ (by omega) (by omega)]
      omega
    rw [take_append_of_length _ _ _ hS1, take_append_of_length _ _ _ hS2,
      drop_append_of_length _ _ _ hS1, drop_append_of_length _ _ _ hS2,
      ih (lo + 1) (by
        calc (lo + 1 + n) * rowLen = (lo + (n + 1)) * rowLen := by ring
          _ ≤ msg.length := hlen)]
    have e0 : lo * rowLen + 0 = lo * rowLen := by ring
    rw [e0]
    rw [sliceL_append msg (lo * rowLen) (lo * rowLen + k) (lo * rowLen + rowLen)
        (by omega) (by omega)]
    have e2 : lo * rowLen + rowLen = (lo + 1) * rowLen := by ring
    rw [e2, sliceL_append msg (lo * rowLen) ((lo + 1) * rowLen) ((lo + 1 + n) * rowLen)
      (Nat.mul_le_mul_right rowLen (by omega))
      (Nat.mul_le_mul_right rowLen (by omega))]
    have e3 : (lo + 1 + n) * rowLen = (lo + (n + 1)) * rowLen := by ring
    rw [e3]

lemma two_slices_eq (msg : List Char) (hlen : msg.length = XSTR * HEIGHT) :
    sliceL msg (0 * XSTR) ((0 + TOP_HALF_ROWS) * XSTR) ++
      sliceL msg (TOP_HALF_ROWS * XSTR)
        ((TOP_HALF_ROWS + (HEIGHT - TOP_HALF_ROWS)) * XSTR) = msg := by
  have e1 : (0 : Nat) * XSTR = 0 := by ring
  have e2 : ((0 : Nat) + TOP_HALF_ROWS) * XSTR = TOP_HALF_ROWS * XSTR := by ring
  rw [e1, e2,
    sliceL_append msg 0 (TOP_HALF_ROWS * XSTR)
      ((TOP_HALF_ROWS + (HEIGHT - TOP_HALF_ROWS)) * XSTR) (Nat.zero_le _)
      (Nat.mul_le_mul_right XSTR (by omega))]
  have e3 : (TOP_HALF_ROWS + (HEIGHT - TOP_HALF_ROWS)) * XSTR = msg.length := by
    rw [hlen]
    norm_num [XSTR, WIDTH, HEIGHT, TOP_HALF_ROWS]
  rw [e3]
  unfold sliceL
  rw [List.drop_zero, Nat.sub_zero, List.take_length]

/-- Claim C3: for every packed stream of exactly XSTR*HEIGHT = 326*984 =
320784 characters, the geometry reorderer succeeds and produces an output
of the same length that is a pure permutation of the input characters
(top-left rows, top-right rows, bottom-left rows, bottom-right rows with
the 162/164 column split), and applying the explicit inverse
unreorderFor1248 recovers the original packed stream exactly; for an
input of any other length it returns the fatal length error. -/
theorem claim_C3 (msg : List Char) :
    (msg.length = XSTR * HEIGHT →
      ∃ out, reorderFor1248 msg = Except.ok out ∧ out.length = msg.length ∧
        out.Perm msg ∧ unreorderFor1248 out = msg) ∧
    (msg.length ≠ XSTR * HEIGHT →
      reorderFor1248 msg = Except.error reorderErr) := by
  constructor
  · intro hlen
    have hLX : LEFT_NIBBLES ≤ XSTR := by norm_num [LEFT_NIBBLES, XSTR, WIDTH]
    have hTopBound : (0 + TOP_HALF_ROWS) * XSTR ≤ msg.length := by
      rw [hlen]
      norm_num [XSTR, WIDTH, HEIGHT, TOP_HALF_ROWS]
    have hBotBound :
        (TOP_HALF_ROWS + (HEIGHT - TOP_HALF_ROWS)) * XSTR ≤ msg.length := by
      rw [hlen]
      norm_num [XSTR, WIDTH, HEIGHT, TOP_HALF_ROWS]
    have hHT : HEIGHT - TOP_HALF_ROWS = TOP_HALF_ROWS := by
      norm_num [HEIGHT, TOP_HALF_ROWS]
    have hABperm := rowSlices_perm msg XSTR 0 LEFT_NIBBLES XSTR (Nat.zero_le _)
      hLX TOP_HALF_ROWS 0
    have hCDperm := rowSlices_perm msg XSTR 0 LEFT_NIBBLES XSTR (Nat.zero_le _)
      hLX (HEIGHT - TOP_HALF_ROWS) TOP_HALF_ROWS
    have hfull_top := rowSlices_full msg XSTR TOP_HALF_ROWS 0
    have hfull_bot := rowSlices_full msg XSTR (HEIGHT - TOP_HALF_ROWS) TOP_HALF_ROWS
    have hperm :
        (rowSlices msg XSTR 0 LEFT_NIBBLES 0 TOP_HALF_ROWS ++
         rowSlices msg XSTR LEFT_NIBBLES XSTR 0 TOP_HALF_ROWS ++
         rowSlices msg XSTR 0 LEFT_NIBBLES TOP_HALF_ROWS (HEIGHT - TOP_HALF_ROWS) ++
         rowSlices msg XSTR LEFT_NIBBLES XSTR TOP_HALF_ROWS
           (HEIGHT - TOP_HALF_ROWS)).Perm msg := by
      rw [List.append_assoc
        (rowSlices msg XSTR 0 LEFT_NIBBLES 0 TOP_HALF_ROWS ++
          rowSlices msg XSTR LEFT_NIBBLES XSTR 0 TOP_HALF_ROWS)
        (rowSlices msg XSTR 0 LEFT_NIBBLES TOP_HALF_ROWS (HEIGHT - TOP_HALF_ROWS))
        (rowSlices msg XSTR LEFT_NIBBLES XSTR TOP_HALF_ROWS
          (HEIGHT - TOP_HALF_ROWS))]
      refine List.Perm.trans (List.Perm.append hABperm hCDperm) ?_
      rw [hfull_top, hfull_bot, two_slices_eq msg hlen]
    refine ⟨_, reorderFor1248_ok msg hlen, hperm.length_eq, hperm, ?_⟩
    -- the explicit inverse
    have hAlen : (rowSlices msg XSTR 0 LEFT_NIBBLES 0 TOP_HALF_ROWS).length =
        TOP_HALF_ROWS * LEFT_NIBBLES := by
      rw [rowSlices_length msg XSTR 0 LEFT_NIBBLES (Nat.zero_le _) hLX
        TOP_HALF_ROWS 0 hTopBound, Nat.sub_zero]
    have hBlen : (rowSlices msg XSTR LEFT_NIBBLES XSTR 0 TOP_HALF_ROWS).length =
        TOP_HALF_ROWS * RIGHT_NIBBLES := by
      rw [rowSlices_length msg XSTR LEFT_NIBBLES XSTR hLX le_rfl
        TOP_HALF_ROWS 0 hTopBound]
      rfl
    have hClen : (rowSlices msg XSTR 0 LEFT_NIBBLES TOP_HALF_ROWS
        (HEIGHT - TOP_HALF_ROWS)).length = TOP_HALF_ROWS * LEFT_NIBBLES := by
      rw [rowSlices_length msg XSTR 0 LEFT_NIBBLES (Nat.zero_le _) hLX
        (HEIGHT - TOP_HALF_ROWS) TOP_HALF_ROWS hBotBound, Nat.sub_zero, hHT]
    simp only [unreorderFor1248]
    rw [List.append_assoc
        (rowSlices msg XSTR 0 LEFT_NIBBLES 0 TOP_HALF_ROWS ++
          rowSlices msg XSTR LEFT_NIBBLES XSTR 0 TOP_HALF_ROWS)
        (rowSlices msg XSTR 0 LEFT_NIBBLES TOP_HALF_ROWS (HEIGHT - TOP_HALF_ROWS))
        (rowSlices msg XSTR LEFT_NIBBLES XSTR TOP_HALF_ROWS
          (HEIGHT - TOP_HALF_ROWS)),
      List.append_assoc
        (rowSlices msg XSTR 0 LEFT_NIBBLES 0 TOP_HALF_ROWS)
        (rowSlices msg XSTR LEFT_NIBBLES XSTR 0 TOP_HALF_ROWS)
        (rowSlices msg XSTR 0 LEFT_NIBBLES TOP_HALF_ROWS (HEIGHT - TOP_HALF_ROWS) ++
          rowSlices msg XSTR LEFT_NIBBLES XSTR TOP_HALF_ROWS
            (HEIGHT - TOP_HALF_ROWS))]
    rw [take_append_of_length _ _ _ hAlen, drop_append_of_length _ _ _ hAlen,
      take_append_of_length _ _ _ hBlen, drop_append_of_length _ _ _ hBlen,
      take_append_of_length _ _ _ hClen, drop_append_of_length _ _ _ hClen]
    have hR : RIGHT_NIBBLES = XSTR - LEFT_NIBBLES := rfl
    rw [hR,
      colsMerge_rowSlices msg XSTR LEFT_NIBBLES hLX TOP_HALF_ROWS 0 hTopBound,
      colsMerge_rowSlices msg XSTR LEFT_NIBBLES hLX (HEIGHT - TOP_HALF_ROWS)
        TOP_HALF_ROWS hBotBound,
      two_slices_eq msg hlen]
  · intro hne
    rw [reorderFor1248, if_pos hne]

theorem claim_C3_witness :
    ((List.replicate (XSTR * HEIGHT) 'a').length = XSTR * HEIGHT →
      ∃ out, reorderFor1248 (List.replicate (XSTR * HEIGHT) 'a') = Except.ok out ∧
        out.length = (List.replicate (XSTR * HEIGHT) 'a').length ∧
        out.Perm (List.replicate (XSTR * HEIGHT) 'a') ∧
        unreorderFor1248 out = List.replicate (XSTR * HEIGHT) 'a') ∧
    (∃ out, reorderFor1248 (List.replicate (XSTR * HEIGHT) 'a') = Except.ok out ∧
        out.length = (List.replicate (XSTR * HEIGHT) 'a').length ∧
        out.Perm (List.replicate (XSTR * HEIGHT) 'a') ∧
        unreorderFor1248 out = List.replicate (XSTR * HEIGHT) 'a') ∧
    reorderFor1248 [] = Except.error reorderErr :=
  ⟨(claim_C3 (List.replicate (XSTR * HEIGHT) 'a')).1,
   (claim_C3 (List.replicate (XSTR * HEIGHT) 'a')).1 (List.length_replicate _ _),
   (claim_C3 []).2 (by norm_num [XSTR, WIDTH, HEIGHT])⟩
